import Mathlib

/-!
# GemPrice — formal model of the pricing backend

A shallow embedding of the GemPrice backend (FastAPI + Gemini + MongoDB with a
local-file fallback store).  Python floats are modelled as rationals (ℚ),
Python strings as Lean `String`, dictionaries as association lists.  External
effects (the Gemini API call, the HTTP rate fetch, the MongoDB connection) are
modelled as explicit outcome parameters, so every function here is a pure,
executable translation of the corresponding Python code.
-/

namespace GemPrice

/-! ## Python primitives -/

/-- Python `round(x)` for a real argument at integer granularity:
round-half-to-even, as documented for Python `round`. -/
def roundHalfEven (x : ℚ) : ℤ :=
  if x - ⌊x⌋ < 1/2 then ⌊x⌋
  else if 1/2 < x - ⌊x⌋ then ⌊x⌋ + 1
  else if ⌊x⌋ % 2 = 0 then ⌊x⌋ else ⌊x⌋ + 1

/-- Python `round(q, 2)`: round to two decimal places, half to even. -/
def pyRound2 (q : ℚ) : ℚ := (roundHalfEven (q * 100) : ℚ) / 100

/-- Python `str.strip()` on the underlying character list. -/
def pyStrip (s : String) : String :=
  String.mk (((s.data.dropWhile Char.isWhitespace).reverse.dropWhile
    Char.isWhitespace).reverse)

/-- Python one-character `str.replace` with an empty replacement: drop every
occurrence of the character. -/
def stripChar (c : Char) (s : String) : String :=
  String.mk (s.data.filter (fun x => x ≠ c))

/-- Numeric value of a digit string (most significant first). -/
def digitsVal (l : List Char) : ℕ :=
  l.foldl (fun n c => 10 * n + (c.toNat - 48)) 0

/-- Python `float(s)` restricted to plain decimal notation: optional
surrounding whitespace, optional sign, digits with an optional fractional
part.  Returns `none` where Python raises `ValueError`. -/
def parseFloat (s : String) : Option ℚ :=
  let cs := ((s.data.dropWhile Char.isWhitespace).reverse.dropWhile
    Char.isWhitespace).reverse
  let signed : ℚ × List Char :=
    match cs with
    | '-' :: rest => (-1, rest)
    | '+' :: rest => (1, rest)
    | _ => (1, cs)
  let intPart := signed.2.takeWhile Char.isDigit
  let rest := signed.2.dropWhile Char.isDigit
  match rest with
  | [] => if intPart.isEmpty then none else some (signed.1 * digitsVal intPart)
  | '.' :: frac =>
    if frac.all Char.isDigit && (!intPart.isEmpty || !frac.isEmpty) then
      some (signed.1 *
        ((digitsVal intPart : ℚ) + (digitsVal frac : ℚ) / (10 : ℚ) ^ frac.length))
    else none
  | _ => none

/-! ## models.py -/

/-- `PriceRecommendationRequest` (models.py): the validated request body.
Pydantic enforces `cost_price > 0` and `competitor_price > 0` when present. -/
structure PriceRecommendationRequest where
  cost_price : ℚ
  competitor_price : Option ℚ
  inventory_level : String
  season : String
  category : String
deriving DecidableEq

/-- `PriceRecommendationResponse` (models.py). -/
structure PriceRecommendationResponse where
  suggested_price : ℚ
  reasoning : String
  confidence_score : Option ℚ
deriving DecidableEq

/-! ## services/gemini.py -/

/-- A JSON value as produced by `json.loads`, restricted to the scalar shapes
relevant to the Gemini reply object. -/
inductive JVal where
  | jnum (q : ℚ)
  | jstr (s : String)
  | jbool (b : Bool)
  | jnull
deriving DecidableEq

/-- Dictionary lookup on a parsed JSON object. -/
def jlookup : List (String × JVal) → String → Option JVal
  | [], _ => none
  | (k, v) :: rest, key => if k = key then some v else jlookup rest key

/-- The observable outcome of the Gemini call in
`GeminiService.get_price_recommendation`:

* `failure`     — `generate_content` raised (network, auth, rate limit, ...);
* `empty`       — `response` falsy or `response.text` empty, which makes the
                  code itself raise `Exception("Empty response from Gemini API")`;
* `invalidJson` — `response.text` present but `json.loads` raises
                  `JSONDecodeError`;
* `validJson`   — `json.loads` succeeded and produced the given object. -/
inductive ModelReply where
  | failure (msg : String)
  | empty
  | invalidJson (text : String)
  | validJson (obj : List (String × JVal))

/-- Pydantic lax coercion of a JSON value to `float` (numbers verbatim,
numeric strings parsed, everything else rejected). -/
def jToFloat : JVal → Option ℚ
  | .jnum q => some q
  | .jstr s => parseFloat s
  | _ => none

/-- Pydantic coercion of a JSON value to `str` (no lax coercion from numbers). -/
def jToStr : JVal → Option String
  | .jstr s => some s
  | _ => none

/-- The three keys required of the Gemini reply (gemini.py line 71). -/
def requiredKeys : List String := ["suggested_price", "reasoning", "confidence_score"]

/-- `all(key in result for key in [...])` (gemini.py line 71). -/
def hasAllKeys (obj : List (String × JVal)) : Bool :=
  requiredKeys.all (fun k => (jlookup obj k).isSome)

/-- `PriceRecommendationResponse(**result)`: pydantic validation of the parsed
object; `none` models a raised `ValidationError`. -/
def buildResponse (obj : List (String × JVal)) : Option PriceRecommendationResponse := do
  let spv ← jlookup obj "suggested_price"
  let sp ← jToFloat spv
  let rv ← jlookup obj "reasoning"
  let r ← jToStr rv
  let conf ←
    match jlookup obj "confidence_score" with
    | some .jnull => some Option.none
    | some v => (jToFloat v).map some
    | none => none
  pure ⟨sp, r, conf⟩

/-- The 50 %-markup fallback taken on JSON parse failure
(gemini.py lines 76–88). -/
def parseFallbackResponse (request : PriceRecommendationRequest) :
    PriceRecommendationResponse :=
  { suggested_price := pyRound2 (request.cost_price * 1.5)
  , reasoning := "Fallback pricing applied due to API parsing error. Applied 50.0% markup on cost price."
  , confidence_score := some 0.6 }

/-- The 40 %-markup emergency fallback taken by the outer `except Exception`
handler (gemini.py lines 90–101). -/
def emergencyFallbackResponse (request : PriceRecommendationRequest)
    (errMsg : String) : PriceRecommendationResponse :=
  { suggested_price := pyRound2 (request.cost_price * 1.4)
  , reasoning := "Emergency fallback pricing due to API error: " ++ errMsg ++ ". Applied 40.0% markup."
  , confidence_score := some 0.5 }

/-- `GeminiService.get_price_recommendation` (gemini.py lines 54–101), here named
`get_price_reco`, as a
function of the request and the observed model reply.  Note the control flow:
the inner handler catches only `json.JSONDecodeError`, so the `ValueError`
raised for a missing key, and any pydantic `ValidationError`, fall through to
the outer `except Exception` emergency tier. -/
def get_price_reco (request : PriceRecommendationRequest)
    (reply : ModelReply) : PriceRecommendationResponse :=
  match reply with
  | .failure msg => emergencyFallbackResponse request msg
  | .empty => emergencyFallbackResponse request "Empty response from Gemini API"
  | .invalidJson _ => parseFallbackResponse request
  | .validJson obj =>
    if hasAllKeys obj then
      match buildResponse obj with
      | some resp => resp
      | none => emergencyFallbackResponse request "validation error"
    else
      emergencyFallbackResponse request "Missing required fields in Gemini response"

/-- Unfolding lemma for the `validJson` branch of
`get_price_reco`. -/
theorem get_price_reco_validJson (request : PriceRecommendationRequest)
    (obj : List (String × JVal)) :
    get_price_reco request (.validJson obj) =
      if hasAllKeys obj then
        match buildResponse obj with
        | some resp => resp
        | none => emergencyFallbackResponse request "validation error"
      else
        emergencyFallbackResponse request "Missing required fields in Gemini response" :=
  rfl

/-! ## Evaluation helpers for `pyRound2` -/

theorem pyRound2_eq_down (q : ℚ) (n : ℤ) (hfl : ⌊q * 100⌋ = n)
    (hlt : q * 100 - n < 1/2) : pyRound2 q = (n : ℚ) / 100 := by
  unfold pyRound2 roundHalfEven
  rw [hfl, if_pos hlt]

theorem pyRound2_eq_up (q : ℚ) (n : ℤ) (hfl : ⌊q * 100⌋ = n)
    (hgt : 1/2 < q * 100 - n) : pyRound2 q = ((n : ℚ) + 1) / 100 := by
  unfold pyRound2 roundHalfEven
  rw [hfl, if_neg (by linarith), if_pos hgt]
  push_cast
  ring_nf

/-! ## Concrete requests used in counterexamples and witnesses -/

/-- A valid request whose cost price has two decimal places. -/
def reqCents : PriceRecommendationRequest :=
  ⟨1.01, none, "low", "summer", "electronics"⟩

/-- A valid request whose cost price has three decimal places. -/
def reqMils : PriceRecommendationRequest :=
  ⟨1.006, none, "medium", "winter", "toys"⟩

/-- The example request given in the spec: cost price 10.0. -/
def reqTen : PriceRecommendationRequest :=
  ⟨10, some 13.5, "high", "summer", "skincare"⟩

/-- C1 (counterexample): at cost_price = 1.01 the emergency tier returns
round(1.414, 2) = 1.41, which is not 1.4 × 1.01 = 1.414. -/
theorem gemini_emergency_exact_multiple_counterexample :
    0 < reqCents.cost_price ∧
    (get_price_reco reqCents (.failure "network error")).suggested_price ≠
      1.4 * reqCents.cost_price := by
  refine ⟨by norm_num [reqCents], ?_⟩
  show pyRound2 (reqCents.cost_price * 1.4) ≠ 1.4 * reqCents.cost_price
  have hfl : ⌊(reqCents.cost_price * 1.4) * 100⌋ = (141 : ℤ) := by
    rw [Int.floor_eq_iff]
    norm_num [reqCents]
  rw [pyRound2_eq_down _ 141 hfl (by norm_num [reqCents])]
  norm_num [reqCents]

/-- C1 (amended): for every request with cost_price > 0, when the model call
raises any error, or returns an empty response, the result is
round(cost_price × 1.4, 2) with confidence 0.5. -/
theorem gemini_emergency_tier (request : PriceRecommendationRequest)
    (h : 0 < request.cost_price) (msg : String) :
    ((get_price_reco request (.failure msg)).suggested_price =
        pyRound2 (request.cost_price * 1.4) ∧
      (get_price_reco request (.failure msg)).confidence_score = some 0.5) ∧
    ((get_price_reco request .empty).suggested_price =
        pyRound2 (request.cost_price * 1.4) ∧
      (get_price_reco request .empty).confidence_score = some 0.5) :=
  ⟨⟨rfl, rfl⟩, ⟨rfl, rfl⟩⟩

/-- C1 (witness): the amended claim instantiated at cost_price = 10. -/
theorem gemini_emergency_tier_witness :
    0 < reqTen.cost_price ∧
    (((get_price_reco reqTen (.failure "network error")).suggested_price =
        pyRound2 (reqTen.cost_price * 1.4) ∧
      (get_price_reco reqTen (.failure "network error")).confidence_score =
        some 0.5) ∧
    ((get_price_reco reqTen .empty).suggested_price =
        pyRound2 (reqTen.cost_price * 1.4) ∧
      (get_price_reco reqTen .empty).confidence_score = some 0.5)) :=
  ⟨by decide, gemini_emergency_tier reqTen (by decide) "network error"⟩

/-- C2 (counterexample): at cost_price = 1.006 the parse-failure tier returns
round(1.509, 2) = 1.51, which is not 1.5 × 1.006 = 1.509. -/
theorem gemini_parse_exact_multiple_counterexample :
    0 < reqMils.cost_price ∧
    (get_price_reco reqMils (.invalidJson "not json")).suggested_price ≠
      1.5 * reqMils.cost_price := by
  refine ⟨by norm_num [reqMils], ?_⟩
  show pyRound2 (reqMils.cost_price * 1.5) ≠ 1.5 * reqMils.cost_price
  have hfl : ⌊(reqMils.cost_price * 1.5) * 100⌋ = (150 : ℤ) := by
    rw [Int.floor_eq_iff]
    norm_num [reqMils]
  rw [pyRound2_eq_up _ 150 hfl (by norm_num [reqMils])]
  norm_num [reqMils]

/-- C2 (amended): for every request with cost_price > 0, when the model reply
is not valid JSON, the result is round(cost_price × 1.5, 2) with
confidence 0.6. -/
theorem gemini_parse_tier (request : PriceRecommendationRequest)
    (h : 0 < request.cost_price) (text : String) :
    (get_price_reco request (.invalidJson text)).suggested_price =
      pyRound2 (request.cost_price * 1.5) ∧
    (get_price_reco request (.invalidJson text)).confidence_score =
      some 0.6 :=
  ⟨rfl, rfl⟩

/-- C2 (witness): the amended claim instantiated at cost_price = 10. -/
theorem gemini_parse_tier_witness :
    0 < reqTen.cost_price ∧
    ((get_price_reco reqTen (.invalidJson "oops")).suggested_price =
        pyRound2 (reqTen.cost_price * 1.5) ∧
      (get_price_reco reqTen (.invalidJson "oops")).confidence_score =
        some 0.6) :=
  ⟨by decide, gemini_parse_tier reqTen (by decide) "oops"⟩

/-- C9: valid JSON missing one of the required keys falls through to the
emergency 1.4× tier with confidence 0.5 (the missing-key `ValueError` is not
caught by the inner `except json.JSONDecodeError`), not the 1.5× parse tier. -/
theorem gemini_missing_key_emergency (request : PriceRecommendationRequest)
    (h : 0 < request.cost_price) (obj : List (String × JVal))
    (hk : hasAllKeys obj = false) :
    get_price_reco request (.validJson obj) =
      emergencyFallbackResponse request "Missing required fields in Gemini response" ∧
    (get_price_reco request (.validJson obj)).suggested_price =
      pyRound2 (request.cost_price * 1.4) ∧
    (get_price_reco request (.validJson obj)).confidence_score = some 0.5 ∧
    (get_price_reco request (.validJson obj)).confidence_score ≠
      (parseFallbackResponse request).confidence_score := by
  have hmain : get_price_reco request (.validJson obj) =
      emergencyFallbackResponse request "Missing required fields in Gemini response" := by
    rw [get_price_reco_validJson, hk]
    exact if_neg (by simp)
  refine ⟨hmain, ?_, ?_, ?_⟩
  · rw [hmain] ; rfl
  · rw [hmain] ; rfl
  · rw [hmain]
    show some (0.5 : ℚ) ≠ some 0.6
    intro hcontra
    have : (0.5 : ℚ) = 0.6 := Option.some.inj hcontra
    norm_num at this

/-- C9 (witness): a reply object carrying only `suggested_price`. -/
theorem gemini_missing_key_emergency_witness :
    0 < reqTen.cost_price ∧
    hasAllKeys [("suggested_price", JVal.jnum 12)] = false ∧
    (get_price_reco reqTen
        (.validJson [("suggested_price", JVal.jnum 12)]) =
      emergencyFallbackResponse reqTen "Missing required fields in Gemini response" ∧
    (get_price_reco reqTen
        (.validJson [("suggested_price", JVal.jnum 12)])).suggested_price =
      pyRound2 (reqTen.cost_price * 1.4) ∧
    (get_price_reco reqTen
        (.validJson [("suggested_price", JVal.jnum 12)])).confidence_score =
      some 0.5 ∧
    (get_price_reco reqTen
        (.validJson [("suggested_price", JVal.jnum 12)])).confidence_score ≠
      (parseFallbackResponse reqTen).confidence_score) :=
  ⟨by decide, by decide,
    gemini_missing_key_emergency reqTen (by decide) _ (by decide)⟩

/-! ## services/currency.py -/

/-- Python `str.upper()`. -/
def pyUpper (s : String) : String := String.mk (s.data.map Char.toUpper)

/-- Python dictionary lookup, `d[key]` / `key in d`, on an association list
with distinct keys. -/
def dictLookup {α : Type} : List (String × α) → String → Option α
  | [], _ => none
  | (k, v) :: rest, key => if k = key then some v else dictLookup rest key

/-- Python `d.get(key, default)`. -/
def dictGetD {α : Type} (d : List (String × α)) (key : String) (default : α) : α :=
  (dictLookup d key).getD default

/-- `CurrencyExchangeService.fallback_rates` (currency.py lines 19–30):
the static USD-pegged table of 10 major currencies. -/
def fallback_rates : List (String × ℚ) :=
  [ ("USD", 1.0), ("EUR", 0.85), ("GBP", 0.73), ("JPY", 110.0), ("CAD", 1.25)
  , ("AUD", 1.35), ("CHF", 0.92), ("CNY", 6.45), ("INR", 74.0), ("KRW", 1180.0) ]

/-- `CurrencyExchangeService._get_fallback_rates` (currency.py lines 67–81). -/
def get_fallback_rates (base_currency : String) : List (String × ℚ) :=
  if base_currency = "USD" then fallback_rates
  else
    let base_rate := dictGetD fallback_rates base_currency 1.0
    fallback_rates.map (fun p => (p.1, p.2 / base_rate))

/-- The observable outcome of the cache check plus HTTP fetch in
`get_exchange_rates`: a cache hit, a 200 reply with a rate object, a non-200
status, or a raised exception. -/
inductive FetchOutcome where
  | cached (rates : List (String × ℚ))
  | ok (rates : List (String × ℚ))
  | httpError (status_code : ℕ)
  | exn (msg : String)

/-- `CurrencyExchangeService.get_exchange_rates` (currency.py lines 32–65) as
a function of the requested base and the observed fetch outcome. -/
def get_exchange_rates (base_currency : String) (fetch : FetchOutcome) :
    List (String × ℚ) :=
  match fetch with
  | .cached rates => rates
  | .ok rates => rates
  | .httpError _ => get_fallback_rates base_currency
  | .exn _ => get_fallback_rates base_currency

/-- A value of the heterogeneous rate-info dictionary returned by
`convert_currency`. -/
inductive RVal where
  | rnum (q : ℚ)
  | rstr (s : String)
deriving DecidableEq

/-- The source marker of `convert_currency` (currency.py line 106):
live_api when the rates cache holds a key for the raw `from_currency` after
the rate lookup, which under a single call holds exactly when the fetch
populated or hit the cache and `from_currency` was already upper-case. -/
def sourceMarker (from_currency : String) (fetch : FetchOutcome) : String :=
  if from_currency = pyUpper from_currency then
    match fetch with
    | .cached _ => "live_api"
    | .ok _ => "live_api"
    | _ => "fallback"
  else "fallback"

/-- `CurrencyExchangeService.convert_currency` (currency.py lines 83–114). -/
def convert_currency (amount : ℚ) (from_currency to_currency : String)
    (fetch : FetchOutcome) : ℚ × List (String × RVal) :=
  if pyUpper from_currency = pyUpper to_currency then
    (amount, [(from_currency ++ "_to_" ++ to_currency, .rnum 1.0)])
  else
    let rates := get_exchange_rates (pyUpper from_currency) fetch
    match dictLookup rates (pyUpper to_currency) with
    | some conversion_rate =>
        (pyRound2 (amount * conversion_rate),
         [ (from_currency ++ "_to_" ++ to_currency, .rnum conversion_rate)
         , ("source", .rstr (sourceMarker from_currency fetch)) ])
    | none =>
        (amount, [("error", .rstr ("Currency " ++ to_currency ++ " not supported"))])

/-- Every rate in the static fallback table is positive. -/
theorem fallback_rates_pos : ∀ p ∈ fallback_rates, (0 : ℚ) < p.2 := by
  intro p hp
  simp only [fallback_rates, List.mem_cons, List.not_mem_nil, or_false] at hp
  rcases hp with h | h | h | h | h | h | h | h | h | h <;> subst h <;> norm_num

/-- A successful `dictLookup` result is a member of the association list. -/
theorem dictLookup_mem {α : Type} (l : List (String × α)) (k : String) (v : α)
    (h : dictLookup l k = some v) : (k, v) ∈ l := by
  induction l with
  | nil => simp [dictLookup] at h
  | cons p rest ih =>
    obtain ⟨pk, pv⟩ := p
    simp only [dictLookup] at h
    split at h
    · next heq =>
        subst heq
        simp only [Option.some.injEq] at h
        subst h
        exact List.mem_cons_self _ _
    · exact List.mem_cons_of_mem _ (ih h)

/-- `dictLookup` commutes with dividing every value by a constant. -/
theorem dictLookup_map_div (l : List (String × ℚ)) (b : ℚ) (k : String) :
    dictLookup (l.map (fun p => (p.1, p.2 / b))) k =
      (dictLookup l k).map (· / b) := by
  induction l with
  | nil => rfl
  | cons p rest ih =>
    obtain ⟨pk, pv⟩ := p
    simp only [List.map_cons, dictLookup]
    split
    · rfl
    · exact ih

/-- C7: converting a currency to itself (case-insensitively) returns the
amount unchanged with rate 1.0, independently of the rate source. -/
theorem convert_currency_identity (amount : ℚ) (from_currency to_currency : String)
    (fetch fetch' : FetchOutcome)
    (h : pyUpper from_currency = pyUpper to_currency) :
    convert_currency amount from_currency to_currency fetch =
      (amount, [(from_currency ++ "_to_" ++ to_currency, RVal.rnum 1.0)]) ∧
    convert_currency amount from_currency to_currency fetch =
      convert_currency amount from_currency to_currency fetch' := by
  unfold convert_currency
  rw [if_pos h, if_pos h]
  exact ⟨rfl, rfl⟩

/-- C7 (witness): converting 5 "usd" to "USD" with the rate source down. -/
theorem convert_currency_identity_witness :
    pyUpper "usd" = pyUpper "USD" ∧
    (convert_currency 5 "usd" "USD" (.exn "connection refused") =
      (5, [("usd" ++ "_to_" ++ "USD", RVal.rnum 1.0)]) ∧
    convert_currency 5 "usd" "USD" (.exn "connection refused") =
      convert_currency 5 "usd" "USD" (.ok [("EUR", 0.9)])) :=
  ⟨by decide,
    convert_currency_identity 5 "usd" "USD" _ (.ok [("EUR", 0.9)]) (by decide)⟩

/-- C8: on fetch failure (exception or non-200 status) the rates for base
USD are exactly the static fallback table, and for any other base present in
the table the returned rate of every currency is its USD-pegged rate divided
by the rate of the base, so the base itself maps to 1.0. -/
theorem fallback_rates_rederivation (status_code : ℕ) (msg : String) :
    (get_exchange_rates "USD" (.httpError status_code) = fallback_rates ∧
     get_exchange_rates "USD" (.exn msg) = fallback_rates) ∧
    ∀ base br, base ≠ "USD" → dictLookup fallback_rates base = some br →
      (∀ c r, dictLookup fallback_rates c = some r →
        dictLookup (get_exchange_rates base (.httpError status_code)) c =
          some (r / br) ∧
        dictLookup (get_exchange_rates base (.exn msg)) c = some (r / br)) ∧
      dictLookup (get_exchange_rates base (.httpError status_code)) base =
        some 1 ∧
      dictLookup (get_exchange_rates base (.exn msg)) base = some 1 := by
  have husd : get_fallback_rates "USD" = fallback_rates := by
    unfold get_fallback_rates
    rw [if_pos rfl]
  refine ⟨⟨husd, husd⟩, ?_⟩
  intro base br hbase hbr
  have hbrpos : 0 < br := fallback_rates_pos (base, br) (dictLookup_mem _ _ _ hbr)
  have hfb : get_fallback_rates base =
      fallback_rates.map (fun p => (p.1, p.2 / br)) := by
    unfold get_fallback_rates
    rw [if_neg hbase]
    simp only [dictGetD, hbr, Option.getD_some]
  have hlook : ∀ c r, dictLookup fallback_rates c = some r →
      dictLookup (get_fallback_rates base) c = some (r / br) := by
    intro c r hc
    rw [hfb, dictLookup_map_div, hc]
    rfl
  refine ⟨fun c r hc => ⟨hlook c r hc, hlook c r hc⟩, ?_, ?_⟩ <;>
    · show dictLookup (get_fallback_rates base) base = some 1
      rw [hlook base br hbr, div_self (ne_of_gt hbrpos)]

/-- C8 (witness): base EUR, currency JPY; 110.0 / 0.85 is the returned rate
and EUR itself maps to 1.0. -/
theorem fallback_rates_rederivation_witness :
    ("EUR" ≠ "USD" ∧ dictLookup fallback_rates "EUR" = some 0.85 ∧
      dictLookup fallback_rates "JPY" = some 110.0) ∧
    ((get_exchange_rates "USD" (.httpError 500) = fallback_rates ∧
      get_exchange_rates "USD" (.exn "timeout") = fallback_rates) ∧
     (dictLookup (get_exchange_rates "EUR" (.httpError 500)) "JPY" =
        some (110.0 / 0.85) ∧
      dictLookup (get_exchange_rates "EUR" (.exn "timeout")) "JPY" =
        some (110.0 / 0.85)) ∧
     dictLookup (get_exchange_rates "EUR" (.httpError 500)) "EUR" = some 1 ∧
     dictLookup (get_exchange_rates "EUR" (.exn "timeout")) "EUR" = some 1) := by
  have h := fallback_rates_rederivation 500 "timeout"
  have h2 := h.2 "EUR" 0.85 (by decide) rfl
  exact ⟨⟨by decide, rfl, rfl⟩,
    ⟨h.1, h2.1 "JPY" 110.0 rfl, h2.2⟩⟩

/-! ## services/local_storage.py -/

/-- A stored `suggested_price` value.  The repository only ever writes floats
here, but `get_suggestions_stats` defends against `None` and strings with
currency symbols, so the model carries all three shapes. -/
inductive PriceVal where
  | pnone
  | pnum (q : ℚ)
  | pstr (s : String)
deriving DecidableEq

/-- The `suggestion_data` dict assembled by the router (price.py lines 50–61)
and consumed by both storage backends. -/
structure SuggestionData where
  product_data : PriceRecommendationRequest
  suggested_price : PriceVal
  reasoning : String
  confidence_score : Option ℚ
deriving DecidableEq

/-- One record of the per-user `suggestions` list in the local JSON file
(local_storage.py lines 62–70). -/
structure LocalSuggestion where
  _id : String
  user_id : String
  product_data : PriceRecommendationRequest
  suggested_price : PriceVal
  reasoning : String
  confidence_score : Option ℚ
  timestamp : String
deriving DecidableEq

/-- Python `l[-n:]`: the last `n` elements (the whole list when shorter). -/
def takeLast {α : Type} (n : ℕ) (l : List α) : List α := l.drop (l.length - n)

/-- The `new_suggestion` dict built by
`LocalStorageService.save_price_suggestion` (local_storage.py lines 62–70):
`len` is the length of the already-stored list, `nowEpoch` the current Unix
timestamp, `nowIso` the current ISO timestamp. -/
def newSuggestionOf (user_sub : String) (suggestion_data : SuggestionData)
    (len : ℕ) (nowEpoch : ℕ) (nowIso : String) : LocalSuggestion :=
  { _id := "local_" ++ toString len ++ "_" ++ toString nowEpoch
  , user_id := user_sub
  , product_data := suggestion_data.product_data
  , suggested_price := suggestion_data.suggested_price
  , reasoning := suggestion_data.reasoning
  , confidence_score := suggestion_data.confidence_score
  , timestamp := nowIso }

/-- `LocalStorageService.save_price_suggestion` (local_storage.py lines
55–85) as a function of the already-stored list and the clock:
appends the new record, keeps only the last 100, and returns the generated
id together with the new stored list. -/
def save_price_suggestion (user_sub : String) (suggestion_data : SuggestionData)
    (existing : List LocalSuggestion) (nowEpoch : ℕ) (nowIso : String) :
    String × List LocalSuggestion :=
  let new_suggestion := newSuggestionOf user_sub suggestion_data
    existing.length nowEpoch nowIso
  let suggestions := takeLast 100 (existing ++ [new_suggestion])
  (new_suggestion._id, suggestions)

/-- Python string comparison (code-point lexicographic) on char lists. -/
def pyStrLeList : List Char → List Char → Bool
  | [], _ => true
  | _ :: _, [] => false
  | a :: as, b :: bs =>
    if a.toNat < b.toNat then true
    else if b.toNat < a.toNat then false
    else pyStrLeList as bs

/-- Python `a <= b` on strings. -/
def pyStrLe (a b : String) : Bool := pyStrLeList a.data b.data

/-- One step of a stable descending insertion by timestamp: a record moves
past every stored record whose timestamp is ≥ its own, so records with equal
timestamps keep their original relative order — the behaviour of the stable
Python `list.sort(key=..., reverse=True)`. -/
def insertDesc (r : LocalSuggestion) : List LocalSuggestion → List LocalSuggestion
  | [] => [r]
  | x :: xs =>
    if pyStrLe r.timestamp x.timestamp then x :: insertDesc r xs
    else r :: x :: xs

/-- The sort call of `get_user_suggestions` (local_storage.py line 93):
stable descending sort by timestamp string. -/
def sortByTimestampDesc (l : List LocalSuggestion) : List LocalSuggestion :=
  l.foldl (fun acc x => insertDesc x acc) []

/-- `LocalStorageService.get_user_suggestions` (local_storage.py lines
87–100): sort newest-first, then slice `[skip : skip + limit]`. -/
def get_user_suggestions (suggestions : List LocalSuggestion)
    (limit : ℕ) (skip : ℕ) : List LocalSuggestion :=
  ((sortByTimestampDesc suggestions).drop skip).take limit

/-- The price coercion inside `get_suggestions_stats` (local_storage.py lines
115–129): skip `None`, take numbers as floats, and parse strings after
removing `$` and `,` and stripping whitespace; `none` is a raised
`ValueError`, which the loop turns into `continue`. -/
def coercePrice : PriceVal → Option ℚ
  | .pnone => none
  | .pnum q => some q
  | .pstr s => parseFloat (pyStrip (stripChar ',' (stripChar '$' s)))

/-- The `prices` list accumulated by `get_suggestions_stats`. -/
def coercedPrices (suggestions : List LocalSuggestion) : List ℚ :=
  suggestions.filterMap (fun s => coercePrice s.suggested_price)

/-- The stats dict returned by `get_suggestions_stats`. -/
structure SuggestionsStats where
  total_suggestions : ℕ
  average_price : ℚ
  min_price : ℚ
  max_price : ℚ
deriving DecidableEq

/-- `LocalStorageService.get_suggestions_stats` (local_storage.py lines
102–148). -/
def get_suggestions_stats (suggestions : List LocalSuggestion) : SuggestionsStats :=
  if suggestions.isEmpty then ⟨0, 0, 0, 0⟩
  else
    match coercedPrices suggestions with
    | [] => ⟨suggestions.length, 0, 0, 0⟩
    | p :: ps =>
      ⟨suggestions.length, (p :: ps).sum / (p :: ps).length,
        ps.foldl min p, ps.foldl max p⟩

/-! ## services/db.py -/

/-- A document of the primary (MongoDB) `price_suggestions` collection as
built by `DatabaseService.save_price_suggestion` (db.py lines 68–75). -/
structure PrimaryDoc where
  user_id : String
  product_data : PriceRecommendationRequest
  suggested_price : PriceVal
  reasoning : String
  confidence_score : Option ℚ
  timestamp : String
deriving DecidableEq

/-- The primary store handle: `self.database is None` after a failed
`connect`, otherwise the documents of the collection. -/
inductive PrimaryState where
  | unavailable
  | available (docs : List PrimaryDoc)
deriving DecidableEq

/-- The outcome of `collection.insert_one` when the store is available:
a returned ObjectId, or a raised exception. -/
inductive InsertOutcome where
  | inserted (oid : String)
  | raised (msg : String)
deriving DecidableEq

/-- `DatabaseService.save_price_suggestion` (db.py lines 53–83): primary
insert when connected and successful, otherwise full delegation to
`LocalStorageService.save_price_suggestion`.  Returns the id handed back to
the caller, the primary state afterwards, and the per-user local file list
afterwards. -/
def db_save_price_suggestion (primary : PrimaryState) (insert : InsertOutcome)
    (user_sub : String) (suggestion_data : SuggestionData)
    (localExisting : List LocalSuggestion) (nowEpoch : ℕ) (nowIso : String) :
    String × PrimaryState × List LocalSuggestion :=
  match primary with
  | .unavailable =>
    let r := save_price_suggestion user_sub suggestion_data localExisting
      nowEpoch nowIso
    (r.1, .unavailable, r.2)
  | .available docs =>
    match insert with
    | .inserted oid =>
      (oid,
       .available (docs ++ [{ user_id := user_sub
                            , product_data := suggestion_data.product_data
                            , suggested_price := suggestion_data.suggested_price
                            , reasoning := suggestion_data.reasoning
                            , confidence_score := suggestion_data.confidence_score
                            , timestamp := nowIso }]),
       localExisting)
    | .raised _ =>
      let r := save_price_suggestion user_sub suggestion_data localExisting
        nowEpoch nowIso
      (r.1, .available docs, r.2)

/-- A sequence of local-store saves, oldest first: each element carries the
suggestion data and the clock readings of that save. -/
def iterSaves (user_sub : String) :
    List (SuggestionData × ℕ × String) → List LocalSuggestion →
    List LocalSuggestion
  | [], l => l
  | op :: ops, l =>
    iterSaves user_sub ops (save_price_suggestion user_sub op.1 l op.2.1 op.2.2).2

/-! ## Local-store lemmas -/

theorem save_length_le (user_sub : String) (sd : SuggestionData)
    (l : List LocalSuggestion) (nowEpoch : ℕ) (nowIso : String) :
    (save_price_suggestion user_sub sd l nowEpoch nowIso).2.length ≤ 100 := by
  unfold save_price_suggestion takeLast
  simp only [List.length_drop, List.length_append, List.length_singleton]
  omega

theorem iterSaves_length_le (user_sub : String)
    (ops : List (SuggestionData × ℕ × String)) :
    ∀ l : List LocalSuggestion, l.length ≤ 100 →
      (iterSaves user_sub ops l).length ≤ 100 := by
  induction ops with
  | nil => intro l h; exact h
  | cons op ops ih =>
    intro l h
    exact ih _ (save_length_le user_sub op.1 l op.2.1 op.2.2)

theorem save_at_cap (user_sub : String) (sd : SuggestionData)
    (l : List LocalSuggestion) (nowEpoch : ℕ) (nowIso : String)
    (hl : l.length = 100) :
    (save_price_suggestion user_sub sd l nowEpoch nowIso).2 =
      l.tail ++ [newSuggestionOf user_sub sd l.length nowEpoch nowIso] := by
  unfold save_price_suggestion takeLast
  show (l ++ [newSuggestionOf user_sub sd l.length nowEpoch nowIso]).drop _ = _
  rw [List.length_append, List.length_singleton, hl]
  show (l ++ _).drop 1 = _
  rw [List.drop_append_of_le_length (by omega), List.drop_one]

theorem mem_takeLast_last {α : Type} (l : List α) (x : α) (n : ℕ) (hn : 1 ≤ n) :
    x ∈ takeLast n (l ++ [x]) := by
  unfold takeLast
  rw [List.length_append, List.length_singleton,
    List.drop_append_of_le_length (by omega)]
  exact List.mem_append_right _ (List.mem_singleton_self x)

theorem insertDesc_perm (r : LocalSuggestion) (l : List LocalSuggestion) :
    List.Perm (insertDesc r l) (r :: l) := by
  induction l with
  | nil => exact List.Perm.refl _
  | cons x xs ih =>
    unfold insertDesc
    by_cases hc : pyStrLe r.timestamp x.timestamp
    · rw [if_pos hc]
      exact (ih.cons x).trans (List.Perm.swap r x xs)
    · rw [if_neg hc]

theorem foldl_insertDesc_perm (l : List LocalSuggestion) :
    ∀ acc, List.Perm (l.foldl (fun acc x => insertDesc x acc) acc) (acc ++ l) := by
  induction l with
  | nil => intro acc; simp
  | cons x xs ih =>
    intro acc
    refine (ih _).trans ?_
    refine (((insertDesc_perm x acc).append_right xs).trans ?_)
    exact List.perm_middle.symm

theorem sortByTimestampDesc_perm (l : List LocalSuggestion) :
    List.Perm (sortByTimestampDesc l) l := by
  have h := foldl_insertDesc_perm l []
  simpa [sortByTimestampDesc] using h

/-- With `skip = 0` and a limit at least the list length, the fallback
listing path returns every stored record (in sorted order). -/
theorem mem_get_user_suggestions (l : List LocalSuggestion) (limit : ℕ)
    (hlim : l.length ≤ limit) : ∀ x ∈ l, x ∈ get_user_suggestions l limit 0 := by
  intro x hx
  unfold get_user_suggestions
  rw [List.drop_zero,
    List.take_of_length_le (by rw [(sortByTimestampDesc_perm l).length_eq]; exact hlim)]
  exact (sortByTimestampDesc_perm l).mem_iff.mpr hx

/-- C3: starting from an empty file, no sequence of saves ever leaves more
than 100 records, and a save onto a full list of 100 drops exactly the oldest
record (the head, i.e. the earliest-inserted) while appending the new one. -/
theorem local_store_cap_and_evict (user_sub : String)
    (ops : List (SuggestionData × ℕ × String)) (sd : SuggestionData)
    (l : List LocalSuggestion) (nowEpoch : ℕ) (nowIso : String)
    (hl : l.length = 100) :
    (iterSaves user_sub ops []).length ≤ 100 ∧
    (save_price_suggestion user_sub sd l nowEpoch nowIso).2 =
      l.tail ++ [newSuggestionOf user_sub sd l.length nowEpoch nowIso] ∧
    (save_price_suggestion user_sub sd l nowEpoch nowIso).2.length = 100 := by
  refine ⟨iterSaves_length_le user_sub ops [] (by simp), ?_, ?_⟩
  · exact save_at_cap user_sub sd l nowEpoch nowIso hl
  · rw [save_at_cap user_sub sd l nowEpoch nowIso hl]
    simp [List.length_append, List.length_tail, hl]

/-- A record already stored locally. -/
def recW : LocalSuggestion :=
  ⟨"local_0_1700000000", "auth0|alice", reqTen, .pnum 14, "prior save",
    some 0.5, "2024-01-01T00:00:00"⟩

/-- A full local file: 100 stored records. -/
def listW : List LocalSuggestion := List.replicate 100 recW

/-- Suggestion data for a new save. -/
def sdW : SuggestionData := ⟨reqTen, .pnum 15, "fallback pricing", some 0.6⟩

/-- C3 (witness): a single save onto a full file of 100 records. -/
theorem local_store_cap_and_evict_witness :
    listW.length = 100 ∧
    ((iterSaves "auth0|alice" [(sdW, 1700000100, "2024-01-02T00:00:00")] []).length
        ≤ 100 ∧
    (save_price_suggestion "auth0|alice" sdW listW 1700000100
        "2024-01-02T00:00:00").2 =
      listW.tail ++ [newSuggestionOf "auth0|alice" sdW listW.length 1700000100
        "2024-01-02T00:00:00"] ∧
    (save_price_suggestion "auth0|alice" sdW listW 1700000100
        "2024-01-02T00:00:00").2.length = 100) :=
  ⟨by simp [listW],
    local_store_cap_and_evict "auth0|alice" _ sdW listW 1700000100
      "2024-01-02T00:00:00" (by simp [listW])⟩

/-- C4: when the primary store is unavailable, or its insert raises, the save
is delegated entirely to the local store: the caller gets the locally
generated id, the primary store is untouched (the record lands in exactly one
backend), and the saved record is retrievable through the fallback listing
path with the same user_id, suggested_price and reasoning. -/
theorem db_save_fallback (primary : PrimaryState) (insert : InsertOutcome)
    (user_sub : String) (sd : SuggestionData)
    (localExisting : List LocalSuggestion) (nowEpoch : ℕ) (nowIso : String)
    (h : primary = .unavailable ∨
      ∃ docs msg, primary = .available docs ∧ insert = .raised msg) :
    (db_save_price_suggestion primary insert user_sub sd localExisting
        nowEpoch nowIso).1 =
      (save_price_suggestion user_sub sd localExisting nowEpoch nowIso).1 ∧
    (db_save_price_suggestion primary insert user_sub sd localExisting
        nowEpoch nowIso).2.1 = primary ∧
    (db_save_price_suggestion primary insert user_sub sd localExisting
        nowEpoch nowIso).2.2 =
      (save_price_suggestion user_sub sd localExisting nowEpoch nowIso).2 ∧
    ∀ limit,
      (save_price_suggestion user_sub sd localExisting nowEpoch nowIso).2.length
        ≤ limit →
      ∃ rec ∈ get_user_suggestions
          (db_save_price_suggestion primary insert user_sub sd localExisting
            nowEpoch nowIso).2.2 limit 0,
        rec._id = (db_save_price_suggestion primary insert user_sub sd
          localExisting nowEpoch nowIso).1 ∧
        rec.user_id = user_sub ∧
        rec.suggested_price = sd.suggested_price ∧
        rec.reasoning = sd.reasoning := by
  have hcase : db_save_price_suggestion primary insert user_sub sd localExisting
      nowEpoch nowIso =
      ((save_price_suggestion user_sub sd localExisting nowEpoch nowIso).1,
        primary,
        (save_price_suggestion user_sub sd localExisting nowEpoch nowIso).2) := by
    rcases h with h | ⟨docs, msg, hp, hi⟩
    · subst h; rfl
    · subst hp; subst hi; rfl
  rw [hcase]
  refine ⟨rfl, rfl, rfl, ?_⟩
  intro limit hlim
  refine ⟨newSuggestionOf user_sub sd localExisting.length nowEpoch nowIso,
    ?_, rfl, rfl, rfl, rfl⟩
  have hmem : newSuggestionOf user_sub sd localExisting.length nowEpoch nowIso ∈
      (save_price_suggestion user_sub sd localExisting nowEpoch nowIso).2 :=
    mem_takeLast_last localExisting _ 100 (by omega)
  exact mem_get_user_suggestions _ limit hlim _ hmem

/-- C4 (witness): the primary store unavailable, an empty local file, and the
smallest sufficient limit. -/
theorem db_save_fallback_witness :
    (save_price_suggestion "auth0|alice" sdW [] 1700000100
        "2024-01-02T00:00:00").2.length ≤ 1 ∧
    ((db_save_price_suggestion .unavailable (.inserted "unused") "auth0|alice"
        sdW [] 1700000100 "2024-01-02T00:00:00").1 =
      (save_price_suggestion "auth0|alice" sdW [] 1700000100
        "2024-01-02T00:00:00").1 ∧
    (db_save_price_suggestion .unavailable (.inserted "unused") "auth0|alice"
        sdW [] 1700000100 "2024-01-02T00:00:00").2.1 = .unavailable ∧
    ∃ rec ∈ get_user_suggestions
        (db_save_price_suggestion .unavailable (.inserted "unused") "auth0|alice"
          sdW [] 1700000100 "2024-01-02T00:00:00").2.2 1 0,
      rec._id = (db_save_price_suggestion .unavailable (.inserted "unused")
        "auth0|alice" sdW [] 1700000100 "2024-01-02T00:00:00").1 ∧
      rec.user_id = "auth0|alice" ∧
      rec.suggested_price = sdW.suggested_price ∧
      rec.reasoning = sdW.reasoning) := by
  have h := db_save_fallback .unavailable (.inserted "unused") "auth0|alice"
    sdW [] 1700000100 "2024-01-02T00:00:00" (Or.inl rfl)
  exact ⟨by decide, h.1, h.2.1, h.2.2.2 1 (by decide)⟩

/-! ## Stats lemmas -/

theorem foldl_min_mem (ps : List ℚ) : ∀ p, ps.foldl min p ∈ p :: ps := by
  induction ps with
  | nil => intro p; exact List.mem_singleton_self p
  | cons q qs ih =>
    intro p
    have h := ih (min p q)
    rcases List.mem_cons.mp h with h1 | h1
    · rw [show (q :: qs).foldl min p = qs.foldl min (min p q) from rfl, h1]
      rcases min_choice p q with hm | hm <;> rw [hm]
      · exact List.mem_cons_self _ _
      · exact List.mem_cons_of_mem _ (List.mem_cons_self _ _)
    · exact List.mem_cons_of_mem _ (List.mem_cons_of_mem _ h1)

theorem foldl_min_le (ps : List ℚ) : ∀ p, ∀ q ∈ p :: ps, ps.foldl min p ≤ q := by
  induction ps with
  | nil =>
    intro p q hq
    rw [List.mem_singleton.mp hq]
    exact le_refl _
  | cons r rs ih =>
    intro p q hq
    show rs.foldl min (min p r) ≤ q
    rcases List.mem_cons.mp hq with hq0 | hq1
    · rw [hq0]
      exact le_trans (ih _ _ (List.mem_cons_self _ _)) (min_le_left p r)
    · rcases List.mem_cons.mp hq1 with hq0 | hq2
      · rw [hq0]
        exact le_trans (ih _ _ (List.mem_cons_self _ _)) (min_le_right p r)
      · exact ih (min p r) q (List.mem_cons_of_mem _ hq2)

theorem foldl_max_mem (ps : List ℚ) : ∀ p, ps.foldl max p ∈ p :: ps := by
  induction ps with
  | nil => intro p; exact List.mem_singleton_self p
  | cons q qs ih =>
    intro p
    have h := ih (max p q)
    rcases List.mem_cons.mp h with h1 | h1
    · rw [show (q :: qs).foldl max p = qs.foldl max (max p q) from rfl, h1]
      rcases max_choice p q with hm | hm <;> rw [hm]
      · exact List.mem_cons_self _ _
      · exact List.mem_cons_of_mem _ (List.mem_cons_self _ _)
    · exact List.mem_cons_of_mem _ (List.mem_cons_of_mem _ h1)

theorem foldl_max_ge (ps : List ℚ) : ∀ p, ∀ q ∈ p :: ps, q ≤ ps.foldl max p := by
  induction ps with
  | nil =>
    intro p q hq
    rw [List.mem_singleton.mp hq]
    exact le_refl _
  | cons r rs ih =>
    intro p q hq
    show q ≤ rs.foldl max (max p r)
    rcases List.mem_cons.mp hq with hq0 | hq1
    · rw [hq0]
      exact le_trans (le_max_left p r) (ih _ _ (List.mem_cons_self _ _))
    · rcases List.mem_cons.mp hq1 with hq0 | hq2
      · rw [hq0]
        exact le_trans (le_max_right p r) (ih _ _ (List.mem_cons_self _ _))
      · exact ih (max p r) q (List.mem_cons_of_mem _ hq2)

/-- Unfolding lemma for `get_suggestions_stats`. -/
theorem get_suggestions_stats_eq (l : List LocalSuggestion) :
    get_suggestions_stats l =
      if l.isEmpty then ⟨0, 0, 0, 0⟩
      else
        match coercedPrices l with
        | [] => ⟨l.length, 0, 0, 0⟩
        | p :: ps =>
          ⟨l.length, (p :: ps).sum / (p :: ps).length,
            ps.foldl min p, ps.foldl max p⟩ :=
  rfl

/-- C6: on an empty suggestion list the stats are all zero; otherwise the
stats report the number of stored suggestions together with the mean of the
coercible prices and their true minimum and maximum. -/
theorem stats_zero_and_aggregate :
    get_suggestions_stats [] = ⟨0, 0, 0, 0⟩ ∧
    ∀ l, l ≠ [] → ∀ p ps, coercedPrices l = p :: ps →
      (get_suggestions_stats l).total_suggestions = l.length ∧
      (get_suggestions_stats l).average_price = (p :: ps).sum / (p :: ps).length ∧
      ((get_suggestions_stats l).min_price ∈ p :: ps ∧
        ∀ q ∈ p :: ps, (get_suggestions_stats l).min_price ≤ q) ∧
      ((get_suggestions_stats l).max_price ∈ p :: ps ∧
        ∀ q ∈ p :: ps, q ≤ (get_suggestions_stats l).max_price) := by
  refine ⟨rfl, ?_⟩
  intro l hne p ps hp
  have hempty : l.isEmpty = false := by
    cases l with
    | nil => exact absurd rfl hne
    | cons a as => rfl
  have hstats : get_suggestions_stats l =
      ⟨l.length, (p :: ps).sum / (p :: ps).length,
        ps.foldl min p, ps.foldl max p⟩ := by
    rw [get_suggestions_stats_eq l, hempty, hp]
    exact if_neg (by simp)
  rw [hstats]
  exact ⟨rfl, rfl, ⟨foldl_min_mem ps p, foldl_min_le ps p⟩,
    ⟨foldl_max_mem ps p, foldl_max_ge ps p⟩⟩

/-- A stored record with numeric price 10. -/
def rec10 : LocalSuggestion :=
  ⟨"local_0_1700000000", "auth0|bob", reqTen, .pnum 10, "first", none,
    "2024-01-01T00:00:00"⟩

/-- A stored record with numeric price 30. -/
def rec30 : LocalSuggestion :=
  ⟨"local_1_1700000050", "auth0|bob", reqTen, .pnum 30, "second", none,
    "2024-01-01T00:01:00"⟩

/-- C6 (witness): two stored records with prices 10 and 30. -/
theorem stats_zero_and_aggregate_witness :
    ([rec10, rec30] ≠ [] ∧ coercedPrices [rec10, rec30] = [10, 30]) ∧
    (get_suggestions_stats [rec10, rec30]).total_suggestions =
      [rec10, rec30].length ∧
    (get_suggestions_stats [rec10, rec30]).average_price =
      ([10, 30] : List ℚ).sum / ([10, 30] : List ℚ).length ∧
    (get_suggestions_stats [rec10, rec30]).min_price ∈ ([10, 30] : List ℚ) ∧
    (get_suggestions_stats [rec10, rec30]).min_price ≤ 10 ∧
    (get_suggestions_stats [rec10, rec30]).max_price ∈ ([10, 30] : List ℚ) ∧
    30 ≤ (get_suggestions_stats [rec10, rec30]).max_price := by
  have h := stats_zero_and_aggregate.2 [rec10, rec30] (by decide) 10 [30] rfl
  exact ⟨⟨by decide, rfl⟩, h.1, h.2.1, h.2.2.1.1,
    h.2.2.1.2 10 (List.mem_cons_self _ _), h.2.2.2.1,
    h.2.2.2.2 30 (List.mem_cons_of_mem _ (List.mem_cons_self _ _))⟩

/-- C10: when the stored suggestions are non-empty but none of the prices is
coercible, the stats report the true (non-zero) count with zero
average/min/max. -/
theorem stats_all_uncoercible (l : List LocalSuggestion) (hne : l ≠ [])
    (hp : coercedPrices l = []) :
    get_suggestions_stats l = ⟨l.length, 0, 0, 0⟩ ∧ l.length ≠ 0 := by
  constructor
  · have hempty : l.isEmpty = false := by
      cases l with
      | nil => exact absurd rfl hne
      | cons a as => rfl
    rw [get_suggestions_stats_eq l, hempty, hp]
    exact if_neg (by simp)
  · intro h0
    exact hne (List.eq_nil_of_length_eq_zero h0)

/-- A stored record whose price is an unparseable string. -/
def recBadPrice : LocalSuggestion :=
  ⟨"local_0_1700000000", "auth0|bob", reqTen, .pstr "not a price", "bad", none,
    "2024-01-01T00:00:00"⟩

/-- A stored record whose price is missing (`None`). -/
def recNonePrice : LocalSuggestion :=
  ⟨"local_1_1700000050", "auth0|bob", reqTen, .pnone, "missing", none,
    "2024-01-01T00:01:00"⟩

/-- C10 (witness): two stored records, neither with a coercible price. -/
theorem stats_all_uncoercible_witness :
    ([recBadPrice, recNonePrice] ≠ [] ∧
      coercedPrices [recBadPrice, recNonePrice] = []) ∧
    (get_suggestions_stats [recBadPrice, recNonePrice] =
      ⟨[recBadPrice, recNonePrice].length, 0, 0, 0⟩ ∧
    [recBadPrice, recNonePrice].length ≠ 0) :=
  ⟨⟨by decide, rfl⟩,
    stats_all_uncoercible [recBadPrice, recNonePrice] (by decide) rfl⟩

/-! ## routers/price.py — CSV batch processing -/

/-- A CSV cell as seen through pandas: a numeric value, a string, or NaN
(also the value `row.get` yields for an absent optional column). -/
inductive CellVal where
  | vnum (q : ℚ)
  | vstr (s : String)
  | vnan
deriving DecidableEq

/-- One data row of the uploaded CSV, after the required-column check. -/
structure CSVRow where
  cost_price : CellVal
  competitor_price : CellVal
  inventory_level : CellVal
  season : CellVal
  category : CellVal
deriving DecidableEq

/-- The result of Python `float(cell)`: a finite value or NaN. -/
inductive PyFloat where
  | fin (q : ℚ)
  | fnan
deriving DecidableEq

/-- Python `float(cell)` on a pandas cell; `.error` is a raised
`ValueError` (non-numeric string). -/
def cellFloat : CellVal → Except String PyFloat
  | .vnum q => .ok (.fin q)
  | .vstr s =>
    match parseFloat s with
    | some q => .ok (.fin q)
    | none => .error ("could not convert string to float: " ++ s)
  | .vnan => .ok .fnan

/-- Python `str(cell)` (never fails). -/
def cellStr : CellVal → String
  | .vnum q => toString q
  | .vstr s => s
  | .vnan => "nan"

/-- `pd.notna` on a cell. -/
def pd_notna : CellVal → Bool
  | .vnan => false
  | _ => true

/-- The per-row `PriceRecommendationRequest(...)` construction of
`upload_csv` (price.py lines 120–126) together with the pydantic validation
of models.py: `float()` conversions may raise, `cost_price` must be a finite
value > 0, `competitor_price` (when not NaN/absent) likewise. -/
def parseCSVRow (row : CSVRow) : Except String PriceRecommendationRequest := do
  let cpf ← cellFloat row.cost_price
  let comp ←
    if pd_notna row.competitor_price then
      (cellFloat row.competitor_price).map some
    else .ok none
  let cp ←
    match cpf with
    | .fin q =>
      if 0 < q then Except.ok q
      else Except.error "cost_price: Input should be greater than 0"
    | .fnan => Except.error "cost_price: Input should be greater than 0"
  let compQ ←
    match comp with
    | none => Except.ok none
    | some (.fin q) =>
      if 0 < q then Except.ok (some q)
      else Except.error "competitor_price: Input should be greater than 0"
    | some .fnan => Except.error "competitor_price: Input should be greater than 0"
  Except.ok
    { cost_price := cp
    , competitor_price := compQ
    , inventory_level := cellStr row.inventory_level
    , season := cellStr row.season
    , category := cellStr row.category }

/-- The outcome recorded for one row: the `"success"` dict (with the parsed
product data and the recommendation from the engine) or the failed dict (with
the raw row and the error string). -/
inductive RowOutcome where
  | success (product_data : PriceRecommendationRequest)
      (resp : PriceRecommendationResponse)
  | failed (raw : CSVRow) (error : String)
deriving DecidableEq

/-- One entry of the `results` list, with its 1-based `row_number`. -/
structure RowResult where
  row_number : ℕ
  outcome : RowOutcome
deriving DecidableEq

/-- The body of the per-row loop of `upload_csv` (price.py lines 117–159) at
0-based index `index`; `engine` is the recommendation call, which by
construction always returns (gemini.py never raises outward). -/
def processRow (engine : PriceRecommendationRequest → PriceRecommendationResponse)
    (index : ℕ) (row : CSVRow) : RowResult :=
  match parseCSVRow row with
  | .ok req => ⟨index + 1, .success req (engine req)⟩
  | .error e => ⟨index + 1, .failed row e⟩

/-- The `results` list accumulated by the loop, starting at 0-based index `i`. -/
def buildResults (engine : PriceRecommendationRequest → PriceRecommendationResponse) :
    ℕ → List CSVRow → List RowResult
  | _, [] => []
  | i, row :: rest => processRow engine i row :: buildResults engine (i + 1) rest

/-- `CSVUploadResponse` (models.py lines 65–69). -/
structure CSVUploadResponse where
  total_products : ℕ
  successful_predictions : ℕ
  failed_predictions : ℕ
  results : List RowResult
deriving DecidableEq

/-- Whether a result entry has `"status": "success"`. -/
def isSuccess (r : RowResult) : Bool :=
  match r.outcome with
  | .success _ _ => true
  | .failed _ _ => false

/-- Whether a row fails parsing or validation. -/
def rowFails (row : CSVRow) : Bool :=
  match parseCSVRow row with
  | .ok _ => false
  | .error _ => true

/-- `upload_csv` (price.py lines 110–174) restricted to its response
computation: the data rows are processed independently and the counters
aggregate the per-row outcomes.  (The best-effort `batch_save_suggestions`
call swallows its own errors and does not touch the response.) -/
def upload_csv (rows : List CSVRow)
    (engine : PriceRecommendationRequest → PriceRecommendationResponse) :
    CSVUploadResponse :=
  let results := buildResults engine 0 rows
  { total_products := rows.length
  , successful_predictions := results.countP isSuccess
  , failed_predictions := results.countP (fun r => !isSuccess r)
  , results := results }

theorem buildResults_length
    (engine : PriceRecommendationRequest → PriceRecommendationResponse)
    (rows : List CSVRow) :
    ∀ i, (buildResults engine i rows).length = rows.length := by
  induction rows with
  | nil => intro i; rfl
  | cons row rest ih =>
    intro i
    show (processRow engine i row :: buildResults engine (i + 1) rest).length = _
    rw [List.length_cons, ih (i + 1), List.length_cons]

theorem isSuccess_processRow
    (engine : PriceRecommendationRequest → PriceRecommendationResponse)
    (i : ℕ) (row : CSVRow) :
    isSuccess (processRow engine i row) = !rowFails row := by
  unfold processRow rowFails
  rcases h : parseCSVRow row with e | req <;> simp [h, isSuccess]

theorem processRow_row_number
    (engine : PriceRecommendationRequest → PriceRecommendationResponse)
    (i : ℕ) (row : CSVRow) : (processRow engine i row).row_number = i + 1 := by
  unfold processRow
  rcases h : parseCSVRow row with e | req <;> simp [h]

theorem buildResults_countP_success
    (engine : PriceRecommendationRequest → PriceRecommendationResponse)
    (rows : List CSVRow) :
    ∀ i, (buildResults engine i rows).countP isSuccess =
      rows.countP (fun row => !rowFails row) := by
  induction rows with
  | nil => intro i; rfl
  | cons row rest ih =>
    intro i
    show (processRow engine i row :: buildResults engine (i + 1) rest).countP _ = _
    rw [List.countP_cons, List.countP_cons, ih (i + 1), isSuccess_processRow]

theorem buildResults_countP_failed
    (engine : PriceRecommendationRequest → PriceRecommendationResponse)
    (rows : List CSVRow) :
    ∀ i, (buildResults engine i rows).countP (fun r => !isSuccess r) =
      rows.countP rowFails := by
  induction rows with
  | nil => intro i; rfl
  | cons row rest ih =>
    intro i
    show (processRow engine i row :: buildResults engine (i + 1) rest).countP _ = _
    rw [List.countP_cons, List.countP_cons, ih (i + 1), isSuccess_processRow]
    rcases hf : rowFails row <;> simp [hf]

theorem buildResults_get_row_number
    (engine : PriceRecommendationRequest → PriceRecommendationResponse)
    (rows : List CSVRow) :
    ∀ i n (h : n < (buildResults engine i rows).length),
      ((buildResults engine i rows).get ⟨n, h⟩).row_number = i + n + 1 := by
  induction rows with
  | nil =>
    intro i n h
    exact absurd h (by simp [buildResults])
  | cons row rest ih =>
    intro i n h
    cases n with
    | zero =>
      show (processRow engine i row).row_number = i + 0 + 1
      rw [processRow_row_number]
    | succ m =>
      have hm : m < (buildResults engine (i + 1) rest).length := by
        have := h
        rw [show buildResults engine i (row :: rest)
            = processRow engine i row :: buildResults engine (i + 1) rest
          from rfl, List.length_cons] at this
        omega
      show ((buildResults engine (i + 1) rest).get ⟨m, hm⟩).row_number = _
      rw [ih (i + 1) m hm]
      omega

/-- The number of rows of a batch that fail parsing or validation. -/
def failedRowCount (rows : List CSVRow) : ℕ := rows.countP rowFails

/-- C5: for a CSV batch of N data rows of which K fail parsing or validation,
the response reports failed = K, successful = N − K, total = N, a results
list of length N, and 1-based row numbers; every row is processed (a failing
row does not shrink the results of the others). -/
theorem upload_csv_counts (rows : List CSVRow)
    (engine : PriceRecommendationRequest → PriceRecommendationResponse) :
    (upload_csv rows engine).total_products = rows.length ∧
    (upload_csv rows engine).failed_predictions = failedRowCount rows ∧
    (upload_csv rows engine).successful_predictions =
      rows.length - failedRowCount rows ∧
    (upload_csv rows engine).successful_predictions +
      (upload_csv rows engine).failed_predictions = rows.length ∧
    (upload_csv rows engine).results.length = rows.length ∧
    ∀ n (h : n < (upload_csv rows engine).results.length),
      ((upload_csv rows engine).results.get ⟨n, h⟩).row_number = n + 1 := by
  have hsucc : (upload_csv rows engine).successful_predictions =
      rows.countP (fun row => !rowFails row) := buildResults_countP_success engine rows 0
  have hfail : (upload_csv rows engine).failed_predictions = rows.countP rowFails :=
    buildResults_countP_failed engine rows 0
  have hsplit : rows.countP (fun row => !rowFails row) + rows.countP rowFails
      = rows.length := by
    have h1 := List.length_eq_countP_add_countP rowFails (l := rows)
    have h2 : rows.countP (fun row => !rowFails row)
        = rows.countP (fun row => ¬(rowFails row = true)) := by
      apply List.countP_congr
      intro row _
      rcases hr : rowFails row <;> simp [hr]
    omega
  refine ⟨rfl, hfail, ?_, ?_, buildResults_length engine rows 0, ?_⟩
  · rw [hsucc]
    show _ = rows.length - rows.countP rowFails
    omega
  · rw [hsucc, hfail]
    omega
  · intro n h
    have := buildResults_get_row_number engine rows 0 n h
    simpa using this

/-- A well-formed CSV row: cost 10, no competitor price. -/
def csvRowGood : CSVRow := ⟨.vnum 10, .vnan, .vstr "high", .vstr "summer", .vstr "toys"⟩

/-- A CSV row whose cost price cannot be converted to a float. -/
def csvRowBad : CSVRow := ⟨.vstr "ten", .vnan, .vstr "low", .vstr "winter", .vstr "toys"⟩

/-- The engine used in the C5 witness: the model is unreachable, so every
parsed row gets the emergency fallback (the engine is total, matching the
never-fail contract of gemini.py). -/
def engineW (request : PriceRecommendationRequest) : PriceRecommendationResponse :=
  get_price_reco request (.failure "model unreachable")

/-- C5 (witness): a 3-row batch with exactly one failing row. -/
theorem upload_csv_counts_witness :
    (upload_csv [csvRowGood, csvRowBad, csvRowGood] engineW).total_products = 3 ∧
    (upload_csv [csvRowGood, csvRowBad, csvRowGood] engineW).failed_predictions = 1 ∧
    (upload_csv [csvRowGood, csvRowBad, csvRowGood] engineW).successful_predictions = 2 ∧
    (upload_csv [csvRowGood, csvRowBad, csvRowGood] engineW).results.length = 3 ∧
    0 < (upload_csv [csvRowGood, csvRowBad, csvRowGood] engineW).results.length ∧
    1 < (upload_csv [csvRowGood, csvRowBad, csvRowGood] engineW).results.length ∧
    ∀ h0 : 0 < (upload_csv [csvRowGood, csvRowBad, csvRowGood] engineW).results.length,
    ∀ h1 : 1 < (upload_csv [csvRowGood, csvRowBad, csvRowGood] engineW).results.length,
      ((upload_csv [csvRowGood, csvRowBad, csvRowGood] engineW).results.get
        ⟨0, h0⟩).row_number = 1 ∧
      ((upload_csv [csvRowGood, csvRowBad, csvRowGood] engineW).results.get
        ⟨1, h1⟩).row_number = 2 := by
  have h := upload_csv_counts [csvRowGood, csvRowBad, csvRowGood] engineW
  have hK : failedRowCount [csvRowGood, csvRowBad, csvRowGood] = 1 := by decide
  refine ⟨h.1, ?_, ?_, h.2.2.2.2.1, by decide, by decide, ?_⟩
  · rw [h.2.1, hK]
  · rw [h.2.2.1, hK]
    rfl
  · intro h0 h1
    exact ⟨h.2.2.2.2.2 0 h0, h.2.2.2.2.2 1 h1⟩

end GemPrice
